import Mathlib

/-!
Coffee shop: a shallow embedding of `магазин кави.cpp`.

The program is a single translation unit that wires five design patterns
(factory, mediator, command, chain of responsibility, state) around a toy
ordering scenario.  Every method writes fixed text to `std::cout`; the only
mutable data are the product vector of an `Order` and the `nextHandler`
pointer of a `DiscountHandler`.

Modelling choices.

* A C++ pointer is `Ptr = Option Addr`; `none` is `nullptr`.
* Objects created with `new` live in `Machine.heap`, a list of cells indexed
  by address; a freed or never allocated cell is `none`.
* `std::cout` is the string `Machine.out`; `<< std::endl` appends a newline
  (flushing is not observable here).
* A class with virtual functions is an inductive type whose constructor is the
  dynamic type of the object; a virtual call loads the object and dispatches.
* Dereferencing a null or dangling pointer, or using an object at the wrong
  type, is undefined in C++ and yields `none` here.
* `DiscountHandler::applyDiscount` can recurse without bound on a cyclic
  chain, so its embedding takes a fuel argument that bounds the call depth.
* Destructors do nothing observable; `delete` only frees the cell.
-/

namespace CoffeeShop

/-- Address of a heap cell. -/
abbrev Addr := Nat

/-- C++ pointer; `none` is the null pointer. -/
abbrev Ptr := Option Addr

/-- Dynamic type of a `Product` object (source lines 8-33); products have no fields. -/
inductive Product where
  | Coffee
  | Tea
  | Cookie
deriving DecidableEq, Repr

/-- Dynamic type of a `ProductFactory` object (source lines 36-61). -/
inductive ProductFactory where
  | CoffeeFactory
  | TeaFactory
  | CookieFactory
deriving DecidableEq, Repr

/-- Dynamic type of a `Client` object (source lines 66-84). -/
inductive Client where
  | ConcreteClient
deriving DecidableEq, Repr

/-- Dynamic type of a `Mediator` object (source lines 87-98). -/
inductive Mediator where
  | ConcreteMediator
deriving DecidableEq, Repr

/-- Data members of `class Order` (source lines 105-106). -/
structure Order where
  products : List Ptr
  client : Ptr
deriving DecidableEq, Repr

/-- Data member of `class OrderCommand` (source line 124). -/
structure OrderCommand where
  order : Ptr
deriving DecidableEq, Repr

/-- Dynamic type of a discount handler object (source lines 137-168). -/
inductive HandlerClass where
  | DiscountHandler
  | EarlyBirdDiscount
  | VIPDiscount
deriving DecidableEq, Repr

/-- Discount handler object: its dynamic type and the private member
`nextHandler` of the base class (source line 139). -/
structure DiscountHandler where
  dyn : HandlerClass
  nextHandler : Ptr
deriving DecidableEq, Repr

/-- Dynamic type of an `OrderState` object (source lines 173-191). -/
inductive OrderState where
  | PaidShippedState
deriving DecidableEq, Repr

/-- Contents of a live heap cell. -/
inductive Object where
  | product (p : Product)
  | factory (f : ProductFactory)
  | client (c : Client)
  | mediator (d : Mediator)
  | order (o : Order)
  | handler (h : DiscountHandler)
  | state (s : OrderState)
deriving DecidableEq, Repr

/-- Program state: the heap and everything written to `std::cout` so far. -/
structure Machine where
  heap : List (Option Object)
  out : String
deriving DecidableEq, Repr

/-- Dereference a pointer: `none` for null, dangling or freed. -/
def Machine.load (m : Machine) : Ptr → Option Object
  | none => none
  | some a => m.heap.getD a none

/-- Overwrite the live cell at address `a`. -/
def Machine.store (m : Machine) (a : Addr) (o : Object) : Machine :=
  { m with heap := m.heap.set a (some o) }

/-- Expression `new T(...)`: allocate a fresh cell holding `o` and return its address. -/
def Machine.new (m : Machine) (o : Object) : Ptr × Machine :=
  (some m.heap.length, { m with heap := m.heap ++ [some o] })

/-- Expression `delete p`: a no-op on null, frees a live cell, undefined otherwise. -/
def Machine.delete (m : Machine) : Ptr → Option Machine
  | none => some m
  | some a =>
    match m.heap.getD a none with
    | some _ => some { m with heap := m.heap.set a none }
    | none => none

/-- Insertion `std::cout << s`. -/
def Machine.cout (m : Machine) (s : String) : Machine :=
  { m with out := m.out ++ s }

/-- Insertion `<< std::endl`. -/
def Machine.endl (m : Machine) : Machine :=
  m.cout "\n"

/-- Number of newline-terminated lines in a piece of output. -/
def lineCount (s : String) : Nat :=
  s.toList.count '\n'

/-! ## 1. Products and factories -/

/-- Method `Coffee::display` (source lines 16-18). -/
def Coffee.display (m : Machine) : Machine :=
  (m.cout "Coffee").endl

/-- Method `Tea::display` (source lines 23-25). -/
def Tea.display (m : Machine) : Machine :=
  (m.cout "Tea").endl

/-- Method `Cookie::display` (source lines 30-32). -/
def Cookie.display (m : Machine) : Machine :=
  (m.cout "Cookie").endl

/-- Virtual call `p->display()` through a `Product*`. -/
def Product.display (m : Machine) (this : Ptr) : Option Machine :=
  match m.load this with
  | some (.product .Coffee) => some (Coffee.display m)
  | some (.product .Tea) => some (Tea.display m)
  | some (.product .Cookie) => some (Cookie.display m)
  | _ => none

/-- Method `CoffeeFactory::createProduct` (source lines 44-46): `return new Coffee();`. -/
def CoffeeFactory.createProduct (m : Machine) : Ptr × Machine :=
  m.new (.product .Coffee)

/-- Method `TeaFactory::createProduct` (source lines 51-53): `return new Tea();`. -/
def TeaFactory.createProduct (m : Machine) : Ptr × Machine :=
  m.new (.product .Tea)

/-- Method `CookieFactory::createProduct` (source lines 58-60): `return new Cookie();`. -/
def CookieFactory.createProduct (m : Machine) : Ptr × Machine :=
  m.new (.product .Cookie)

/-- Virtual call `f->createProduct()` through a `ProductFactory*`. -/
def ProductFactory.createProduct (m : Machine) (this : Ptr) : Option (Ptr × Machine) :=
  match m.load this with
  | some (.factory .CoffeeFactory) => some (CoffeeFactory.createProduct m)
  | some (.factory .TeaFactory) => some (TeaFactory.createProduct m)
  | some (.factory .CookieFactory) => some (CookieFactory.createProduct m)
  | _ => none

/-- The statement pair of `main` at source lines 198-199:
`Product* p = f->createProduct(); p->display();`. -/
def createThenDisplay (m : Machine) (f : Ptr) : Option Machine :=
  match ProductFactory.createProduct m f with
  | some (p, m1) => Product.display m1 p
  | none => none

/-! ## 2. Clients and the mediator -/

/-- Method `ConcreteClient::placeOrder` (source lines 75-78). -/
def ConcreteClient.placeOrder (m : Machine) : Machine :=
  (m.cout "Order placed").endl

/-- Method `ConcreteClient::viewOrderHistory` (source lines 80-83). -/
def ConcreteClient.viewOrderHistory (m : Machine) : Machine :=
  (m.cout "Order history viewed").endl

/-- Virtual call `c->placeOrder()` through a `Client*`. -/
def Client.placeOrder (m : Machine) (this : Ptr) : Option Machine :=
  match m.load this with
  | some (.client .ConcreteClient) => some (ConcreteClient.placeOrder m)
  | _ => none

/-- Virtual call `c->viewOrderHistory()` through a `Client*`. -/
def Client.viewOrderHistory (m : Machine) (this : Ptr) : Option Machine :=
  match m.load this with
  | some (.client .ConcreteClient) => some (ConcreteClient.viewOrderHistory m)
  | _ => none

/-- Method `ConcreteMediator::notify` (source lines 95-97).  The parameter
`client` is never used by the body. -/
def ConcreteMediator.notify (m : Machine) (_client : Ptr) (message : String) : Machine :=
  ((m.cout "Notification to client: ").cout message).endl

/-- Virtual call `d->notify(client, message)` through a `Mediator*`. -/
def Mediator.notify (m : Machine) (this : Ptr) (client : Ptr) (message : String) :
    Option Machine :=
  match m.load this with
  | some (.mediator .ConcreteMediator) => some (ConcreteMediator.notify m client message)
  | _ => none

/-! ## 3. Orders and the order command -/

/-- Constructor `Order(Client* client) : client(client) {}` (source line 109);
the vector member is default-constructed empty. -/
def Order.construct (client : Ptr) : Order :=
  { products := [], client := client }

/-- Method `Order::addProduct` (source lines 111-113): `products.push_back(product)`. -/
def Order.addProduct (m : Machine) (this : Ptr) (product : Ptr) : Option Machine :=
  match this, m.load this with
  | some a, some (.order o) =>
    some (m.store a (.order { o with products := o.products ++ [product] }))
  | _, _ => none

/-- Method `Order::execute` (source lines 115-118). -/
def Order.execute (m : Machine) (this : Ptr) : Option Machine :=
  match m.load this with
  | some (.order _) => some ((m.cout "Order executed").endl)
  | _ => none

/-- Constructor `OrderCommand(Order* order) : order(order) {}` (source line 127). -/
def OrderCommand.construct (order : Ptr) : OrderCommand :=
  { order := order }

/-- Method `OrderCommand::execute` (source lines 129-131): `order->execute();`. -/
def OrderCommand.execute (m : Machine) (this : OrderCommand) : Option Machine :=
  Order.execute m this.order

/-! ## 4. The discount chain -/

/-- Default-initialization of a handler (`DiscountHandler h;` or
`new DiscountHandler`).  The class hierarchy declares no constructor and
`nextHandler` has no initializer (source lines 137-144), so the implicit
constructor writes nothing to it: the member keeps the indeterminate content
of the storage, here the argument `indeterminate`. -/
def DiscountHandler.defaultInit (dyn : HandlerClass) (indeterminate : Ptr) : DiscountHandler :=
  { dyn := dyn, nextHandler := indeterminate }

/-- Value-initialization of a handler (`new EarlyBirdDiscount()` with
parentheses, the only form used by `main`, source lines 213-214): the storage
is zero-initialized before the implicit constructor runs. -/
def DiscountHandler.valueInit (dyn : HandlerClass) : DiscountHandler :=
  DiscountHandler.defaultInit dyn none

/-- Method `DiscountHandler::setNextHandler` (source lines 142-144). -/
def DiscountHandler.setNextHandler (m : Machine) (this : Ptr) (handler : Ptr) :
    Option Machine :=
  match this, m.load this with
  | some a, some (.handler h) => some (m.store a (.handler { h with nextHandler := handler }))
  | _, _ => none

/-- Method `EarlyBirdDiscount::applyDiscount` (source lines 156-159). -/
def EarlyBirdDiscount.applyDiscount (m : Machine) (_order : Ptr) : Machine :=
  (m.cout "Early Bird Discount Applied").endl

/-- Method `VIPDiscount::applyDiscount` (source lines 164-167). -/
def VIPDiscount.applyDiscount (m : Machine) (_order : Ptr) : Machine :=
  (m.cout "VIP Discount Applied").endl

/-- Virtual call `h->applyDiscount(order)` through a `DiscountHandler*`.
The two overrides print and return.  The base body (source lines 146-150)
tests `nextHandler` and, when it is not null, makes the same virtual call on
it.  Each call consumes one unit of fuel; `none` means undefined behaviour or
a call depth above the fuel. -/
def DiscountHandler.applyDiscount : Nat → Machine → Ptr → Ptr → Option Machine
  | 0, _, _, _ => none
  | fuel + 1, m, this, order =>
    match m.load this with
    | some (.handler h) =>
      match h.dyn with
      | .EarlyBirdDiscount => some (EarlyBirdDiscount.applyDiscount m order)
      | .VIPDiscount => some (VIPDiscount.applyDiscount m order)
      | .DiscountHandler =>
        match h.nextHandler with
        | some next => DiscountHandler.applyDiscount fuel m (some next) order
        | none => some m
    | _ => none

/-! ## 5. Order state -/

/-- Method `PaidShippedState::markPaid` (source lines 182-185). -/
def PaidShippedState.markPaid (m : Machine) (_order : Ptr) : Machine :=
  (m.cout "Order marked as paid").endl

/-- Method `PaidShippedState::markShipped` (source lines 187-190). -/
def PaidShippedState.markShipped (m : Machine) (_order : Ptr) : Machine :=
  (m.cout "Order marked as shipped").endl

/-- Virtual call `s->markPaid(order)` through an `OrderState*`. -/
def OrderState.markPaid (m : Machine) (this : Ptr) (order : Ptr) : Option Machine :=
  match m.load this with
  | some (.state .PaidShippedState) => some (PaidShippedState.markPaid m order)
  | _ => none

/-- Virtual call `s->markShipped(order)` through an `OrderState*`. -/
def OrderState.markShipped (m : Machine) (this : Ptr) (order : Ptr) : Option Machine :=
  match m.load this with
  | some (.state .PaidShippedState) => some (PaidShippedState.markShipped m order)
  | _ => none

/-! ## The driver -/

/-- Function `main` (source lines 193-236), run from the machine `m0`; the
result is the exit status and the final machine.  A statement whose embedding
is undefined makes the whole run undefined.  The argument `fuel` is the call
depth allowed to the one `applyDiscount` call.  The `OrderCommand` is a local
object, not a heap cell. -/
def main (fuel : Nat) (m0 : Machine) : Option (Int × Machine) := do
  -- 1. products
  let (coffeeFactory, m) := m0.new (.factory .CoffeeFactory)
  let some (coffee, m) := ProductFactory.createProduct m coffeeFactory | none
  let some m := Product.display m coffee | none
  -- 2. clients
  let (client, m) := m.new (.client .ConcreteClient)
  let some m := Client.placeOrder m client | none
  let some m := Client.viewOrderHistory m client | none
  -- 3. orders
  let (order, m) := m.new (.order (Order.construct client))
  let some m := Order.addProduct m order coffee | none
  let orderCommand := OrderCommand.construct order
  let some m := OrderCommand.execute m orderCommand | none
  -- 4. discounts
  let (earlyBirdDiscount, m) := m.new (.handler (DiscountHandler.valueInit .EarlyBirdDiscount))
  let (vipDiscount, m) := m.new (.handler (DiscountHandler.valueInit .VIPDiscount))
  let some m := DiscountHandler.setNextHandler m earlyBirdDiscount vipDiscount | none
  let (discountedOrder, m) := m.new (.order (Order.construct client))
  let some m := DiscountHandler.applyDiscount fuel m earlyBirdDiscount discountedOrder | none
  -- 5. paid and shipped
  let (orderState, m) := m.new (.state .PaidShippedState)
  let some m := OrderState.markPaid m orderState discountedOrder | none
  let some m := OrderState.markShipped m orderState discountedOrder | none
  -- release
  let some m := m.delete coffee | none
  let some m := m.delete coffeeFactory | none
  let some m := m.delete client | none
  let some m := m.delete order | none
  let some m := m.delete discountedOrder | none
  let some m := m.delete earlyBirdDiscount | none
  let some m := m.delete vipDiscount | none
  let some m := m.delete orderState | none
  return (0, m)

/-- The machine at program start: empty heap, nothing printed. -/
def Machine.initial : Machine :=
  { heap := [], out := "" }

/-! ## Specification-side definitions

These follow the wording of the specification, not the source; the theorems
below compare them with the embedding of the code. -/

/-- Specification side (section 4.1): the fixed mapping from factories to the
product variant each one is said to produce. -/
def expectedVariant : ProductFactory → Product
  | .CoffeeFactory => .Coffee
  | .TeaFactory => .Tea
  | .CookieFactory => .Cookie

/-- Specification side (section 4.1): the fixed name line of each product variant. -/
def expectedName : Product → String
  | .Coffee => "Coffee\n"
  | .Tea => "Tea\n"
  | .Cookie => "Cookie\n"

/-! ## Handler chains in the heap -/

/-- A null-terminated handler chain: following `nextHandler` from the pointer
`p` in machine `m` visits live handler objects whose dynamic types are `cs`,
in this order, and then reaches the null pointer.  Such a chain is finite and
has no cycle. -/
def isChain (m : Machine) : Ptr → List HandlerClass → Bool
  | p, [] => p.isNone
  | p, c :: cs =>
    match m.load p with
    | some (.handler h) => if h.dyn = c then isChain m h.nextHandler cs else false
    | _ => false

/-- Specification side (the wording of claim C10): the text predicted for a chain whose
nodes have the dynamic types `cs`: the line of the first concrete handler met
when walking through base handlers, nothing when every node is a base handler. -/
def chainOutput : List HandlerClass → String
  | [] => ""
  | .DiscountHandler :: cs => chainOutput cs
  | .EarlyBirdDiscount :: _ => "Early Bird Discount Applied\n"
  | .VIPDiscount :: _ => "VIP Discount Applied\n"

/-! ## Sample machines -/

/-- A heap with one handler of each class, each value-initialized. -/
def sampleHandlers : Machine :=
  { heap := [some (.handler (DiscountHandler.valueInit .EarlyBirdDiscount)),
             some (.handler (DiscountHandler.valueInit .VIPDiscount)),
             some (.handler (DiscountHandler.valueInit .DiscountHandler))],
    out := "" }

/-- A heap with the chain base (address 0) to base (1) to VIP (2) to EarlyBird (3) to null. -/
def sampleChain : Machine :=
  { heap := [some (.handler { dyn := .DiscountHandler, nextHandler := some 1 }),
             some (.handler { dyn := .DiscountHandler, nextHandler := some 2 }),
             some (.handler { dyn := .VIPDiscount, nextHandler := some 3 }),
             some (.handler { dyn := .EarlyBirdDiscount, nextHandler := none })],
    out := "" }

/-- A heap with a Coffee (address 0), a client (1) and an order (2) of that
client that already holds the Coffee twice. -/
def sampleOrder : Machine :=
  { heap := [some (.product .Coffee), some (.client .ConcreteClient),
             some (.order { products := [some 0, some 0], client := some 1 })],
    out := "" }

/-- A heap with one factory of each class. -/
def sampleFactories : Machine :=
  { heap := [some (.factory .CoffeeFactory), some (.factory .TeaFactory),
             some (.factory .CookieFactory)],
    out := "" }

/-- A VIP handler at address 0, and at address 1 a base handler created by
default-initialization over storage whose bytes happen to hold the address 0. -/
def sampleDefaultInit : Machine :=
  ({ heap := [some (.handler (DiscountHandler.valueInit .VIPDiscount))], out := "" } : Machine).new
    (.handler (DiscountHandler.defaultInit .DiscountHandler (some 0))) |>.2

/-! ## Basic facts about the machine -/

theorem Machine.load_some_lt {m : Machine} {a : Addr} {o : Object}
    (h : m.load (some a) = some o) : a < m.heap.length := by
  by_contra hlt
  have hge : m.heap.length ≤ a := Nat.le_of_not_lt hlt
  simp [Machine.load, List.getD_eq_getElem?_getD, List.getElem?_eq_none hge] at h

theorem Machine.load_store_self {m : Machine} {a : Addr} {o : Object} (o1 : Object)
    (h : m.load (some a) = some o) : (m.store a o1).load (some a) = some o1 := by
  have hlt := Machine.load_some_lt h
  simp [Machine.load, Machine.store, List.getD_eq_getElem?_getD, hlt]

theorem Machine.load_store_ne (m : Machine) {a b : Addr} (o1 : Object) (hne : b ≠ a) :
    (m.store a o1).load (some b) = m.load (some b) := by
  simp [Machine.load, Machine.store, List.getD_eq_getElem?_getD, List.getElem?_set_ne (Ne.symm hne)]

theorem Machine.load_new_self (m : Machine) (o : Object) :
    (m.new o).2.load (m.new o).1 = some o := by
  simp [Machine.load, Machine.new, List.getD_eq_getElem?_getD]

theorem Machine.load_new_old {m : Machine} {p : Ptr} {o : Object} (o1 : Object)
    (h : m.load p = some o) : (m.new o1).2.load p = some o := by
  cases p with
  | none => simp [Machine.load] at h
  | some a =>
    have hlt := Machine.load_some_lt h
    simpa [Machine.load, Machine.new, List.getD_eq_getElem?_getD, List.getElem?_append_left hlt]
      using h

theorem Machine.cout_endl (m : Machine) (s : String) :
    (m.cout s).endl = { heap := m.heap, out := m.out ++ (s ++ "\n") } := by
  simp [Machine.cout, Machine.endl, String.append_assoc]

theorem lineCount_append (s t : String) : lineCount (s ++ t) = lineCount s + lineCount t := by
  simp [lineCount, String.toList, String.data_append, List.count_append]

theorem getD_append_add {α : Type} (l L : List α) (k : Nat) (d : α) :
    (l ++ L).getD (l.length + k) d = L.getD k d := by
  simp [List.getD_eq_getElem?_getD, List.getElem?_append_right]

theorem getD_append_length {α : Type} (l L : List α) (d : α) :
    (l ++ L).getD l.length d = L.getD 0 d := by
  simpa using getD_append_add l L 0 d

theorem set_append_add {α : Type} (l L : List α) (k : Nat) (v : α) :
    (l ++ L).set (l.length + k) v = l ++ L.set k v := by
  simp [List.set_append]

theorem set_append_length {α : Type} (l L : List α) (v : α) :
    (l ++ L).set l.length v = l ++ L.set 0 v := by
  simp [List.set_append]

/-! ## Output of the individual methods -/

theorem earlyBird_applyDiscount_eq (m : Machine) (order : Ptr) :
    EarlyBirdDiscount.applyDiscount m order =
      { heap := m.heap, out := m.out ++ "Early Bird Discount Applied\n" } :=
  Machine.cout_endl m "Early Bird Discount Applied"

theorem vip_applyDiscount_eq (m : Machine) (order : Ptr) :
    VIPDiscount.applyDiscount m order =
      { heap := m.heap, out := m.out ++ "VIP Discount Applied\n" } :=
  Machine.cout_endl m "VIP Discount Applied"

theorem DiscountHandler.setNextHandler_eq {m : Machine} {a : Addr} {h : DiscountHandler}
    (handler : Ptr) (hload : m.load (some a) = some (.handler h)) :
    DiscountHandler.setNextHandler m (some a) handler =
      some (m.store a (.handler { dyn := h.dyn, nextHandler := handler })) := by
  simp [DiscountHandler.setNextHandler, hload]

theorem DiscountHandler.applyDiscount_earlyBird {m : Machine} {this : Ptr}
    {h : DiscountHandler} (fuel : Nat) (order : Ptr)
    (hload : m.load this = some (.handler h)) (hd : h.dyn = .EarlyBirdDiscount) :
    DiscountHandler.applyDiscount (fuel + 1) m this order =
      some { heap := m.heap, out := m.out ++ "Early Bird Discount Applied\n" } := by
  simp only [DiscountHandler.applyDiscount, hload, hd, earlyBird_applyDiscount_eq]

theorem DiscountHandler.applyDiscount_vip {m : Machine} {this : Ptr}
    {h : DiscountHandler} (fuel : Nat) (order : Ptr)
    (hload : m.load this = some (.handler h)) (hd : h.dyn = .VIPDiscount) :
    DiscountHandler.applyDiscount (fuel + 1) m this order =
      some { heap := m.heap, out := m.out ++ "VIP Discount Applied\n" } := by
  simp only [DiscountHandler.applyDiscount, hload, hd, vip_applyDiscount_eq]

theorem DiscountHandler.applyDiscount_base_next {m : Machine} {this : Ptr}
    {h : DiscountHandler} {next : Addr} (fuel : Nat) (order : Ptr)
    (hload : m.load this = some (.handler h)) (hd : h.dyn = .DiscountHandler)
    (hn : h.nextHandler = some next) :
    DiscountHandler.applyDiscount (fuel + 1) m this order =
      DiscountHandler.applyDiscount fuel m (some next) order := by
  simp only [DiscountHandler.applyDiscount, hload, hd, hn]

theorem DiscountHandler.applyDiscount_base_null {m : Machine} {this : Ptr}
    {h : DiscountHandler} (fuel : Nat) (order : Ptr)
    (hload : m.load this = some (.handler h)) (hd : h.dyn = .DiscountHandler)
    (hn : h.nextHandler = none) :
    DiscountHandler.applyDiscount (fuel + 1) m this order = some m := by
  simp only [DiscountHandler.applyDiscount, hload, hd, hn]

/-! ## C1 -/

/-- C1: for concrete handlers H1 (at `a1`) and H2 (at `a2`), each an
EarlyBirdDiscount or a VIPDiscount, and every order pointer, after
`H1.setNextHandler(H2)` the call `H1.applyDiscount(order)` returns, leaves the
heap alone and appends to the output exactly the one line of H1 (the Early
Bird line for an EarlyBirdDiscount, the VIP line for a VIPDiscount); nothing
of H2 is printed. -/
theorem C1_concrete_handler_prints_only_its_own_line
    (m : Machine) (a1 a2 : Addr) (h1 h2 : DiscountHandler) (order : Ptr) (fuel : Nat)
    (hload1 : m.load (some a1) = some (.handler h1))
    (hload2 : m.load (some a2) = some (.handler h2))
    (hc1 : h1.dyn ≠ .DiscountHandler) (hc2 : h2.dyn ≠ .DiscountHandler) :
    ∃ m1, DiscountHandler.setNextHandler m (some a1) (some a2) = some m1 ∧
      m1.out = m.out ∧
      (h1.dyn = .EarlyBirdDiscount →
        DiscountHandler.applyDiscount (fuel + 1) m1 (some a1) order =
          some { heap := m1.heap, out := m.out ++ "Early Bird Discount Applied\n" }) ∧
      (h1.dyn = .VIPDiscount →
        DiscountHandler.applyDiscount (fuel + 1) m1 (some a1) order =
          some { heap := m1.heap, out := m.out ++ "VIP Discount Applied\n" }) ∧
      (h1.dyn = .EarlyBirdDiscount ∨ h1.dyn = .VIPDiscount) := by
  have _ := hload2
  have _ := hc2
  have hl := Machine.load_store_self
    (.handler { dyn := h1.dyn, nextHandler := some a2 }) hload1
  refine ⟨_, DiscountHandler.setNextHandler_eq (some a2) hload1, rfl, ?_, ?_, ?_⟩
  · intro hd
    exact DiscountHandler.applyDiscount_earlyBird fuel order hl hd
  · intro hd
    exact DiscountHandler.applyDiscount_vip fuel order hl hd
  · cases hd : h1.dyn <;> simp_all

theorem C1_witness :
    (sampleHandlers.load (some 0) =
        some (.handler (DiscountHandler.valueInit .EarlyBirdDiscount)) ∧
      sampleHandlers.load (some 1) =
        some (.handler (DiscountHandler.valueInit .VIPDiscount))) ∧
    ∃ m1, DiscountHandler.setNextHandler sampleHandlers (some 0) (some 1) = some m1 ∧
      DiscountHandler.applyDiscount 1 m1 (some 0) none =
        some { heap := m1.heap,
               out := sampleHandlers.out ++ "Early Bird Discount Applied\n" } := by
  refine ⟨⟨by decide, by decide⟩, ?_⟩
  obtain ⟨m1, hset, _, heb, _, _⟩ :=
    C1_concrete_handler_prints_only_its_own_line sampleHandlers 0 1
      (DiscountHandler.valueInit .EarlyBirdDiscount) (DiscountHandler.valueInit .VIPDiscount)
      none 0 (by decide) (by decide) (by decide) (by decide)
  exact ⟨m1, hset, heb rfl⟩

/-! ## C3 -/

theorem Order.addProduct_eq {m : Machine} {a : Addr} {o : Order} (product : Ptr)
    (hload : m.load (some a) = some (.order o)) :
    Order.addProduct m (some a) product =
      some (m.store a (.order { products := o.products ++ [product], client := o.client })) := by
  simp [Order.addProduct, hload]

theorem Order.addProduct_foldlM {a : Addr} (ps : List Ptr) :
    ∀ (m : Machine) (o : Order), m.load (some a) = some (.order o) →
      ∃ mn, ps.foldlM (fun s p => Order.addProduct s (some a) p) m = some mn ∧
        mn.load (some a) = some (.order { products := o.products ++ ps, client := o.client }) ∧
        mn.out = m.out := by
  induction ps with
  | nil =>
    intro m o hload
    exact ⟨m, rfl, by simpa using hload, rfl⟩
  | cons p ps ih =>
    intro m o hload
    have hl := Machine.load_store_self
      (.order { products := o.products ++ [p], client := o.client }) hload
    obtain ⟨mn, hrun, hres, hout⟩ := ih _ _ hl
    refine ⟨mn, ?_, ?_, ?_⟩
    · simp only [List.foldlM_cons, Order.addProduct_eq p hload]
      exact hrun
    · simpa using hres
    · simpa [Machine.store] using hout

/-- C3: for every order (a live Order object at `a`) and every product
pointer, `Order.addProduct(product)` returns and the order then holds the old
products followed by the new one: the count grows by exactly one, the new
product is last, every earlier position keeps its product, the client pointer
is the same, nothing is printed and no other heap cell changes.  Running it
for a list of arguments leaves the old products followed by the arguments in
call order, duplicates included. -/
theorem C3_addProduct_appends_one
    (m : Machine) (a : Addr) (o : Order) (product : Ptr)
    (hload : m.load (some a) = some (.order o)) :
    (∃ m1 o1, Order.addProduct m (some a) product = some m1 ∧
      m1.load (some a) = some (.order o1) ∧
      o1.products = o.products ++ [product] ∧
      o1.products.length = o.products.length + 1 ∧
      o1.products.getLast? = some product ∧
      (∀ i, i < o.products.length → o1.products[i]? = o.products[i]?) ∧
      o1.client = o.client ∧
      m1.out = m.out ∧
      (∀ b, b ≠ a → m1.load (some b) = m.load (some b))) ∧
    (∀ ps : List Ptr, ∃ mn,
      ps.foldlM (fun s p => Order.addProduct s (some a) p) m = some mn ∧
      mn.load (some a) = some (.order { products := o.products ++ ps, client := o.client })) := by
  constructor
  · refine ⟨_, { products := o.products ++ [product], client := o.client },
      Order.addProduct_eq product hload, Machine.load_store_self _ hload, rfl, ?_, ?_, ?_,
      rfl, rfl, ?_⟩
    · simp
    · simp
    · intro i hi
      simp [List.getElem?_append_left hi]
    · intro b hb
      exact Machine.load_store_ne m _ hb
  · intro ps
    obtain ⟨mn, hrun, hres, _⟩ := Order.addProduct_foldlM ps m o hload
    exact ⟨mn, hrun, hres⟩

theorem C3_witness :
    sampleOrder.load (some 2) =
      some (.order { products := [some 0, some 0], client := some 1 }) ∧
    ∃ m1 o1, Order.addProduct sampleOrder (some 2) (some 0) = some m1 ∧
      m1.load (some 2) = some (.order o1) ∧
      o1.products = [some 0, some 0] ++ [some 0] := by
  refine ⟨by decide, ?_⟩
  obtain ⟨⟨m1, o1, hadd, hl, hp, _⟩, _⟩ :=
    C3_addProduct_appends_one sampleOrder 2
      { products := [some 0, some 0], client := some 1 } (some 0) (by decide)
  exact ⟨m1, o1, hadd, hl, hp⟩

/-! ## C4 -/

theorem Order.execute_eq {m : Machine} {this : Ptr} {o : Order}
    (hload : m.load this = some (.order o)) :
    Order.execute m this = some { heap := m.heap, out := m.out ++ "Order executed\n" } := by
  simp only [Order.execute, hload, Machine.cout_endl]
  rfl

/-- C4: for every order (a live Order object at `a`, with any products and any
client), `OrderCommand(order).execute()` returns, appends the single line
"Order executed" to the output, is exactly `order.execute()`, and leaves the
heap, hence the products and the client of the order, unchanged. -/
theorem C4_orderCommand_execute_forwards
    (m : Machine) (a : Addr) (o : Order)
    (hload : m.load (some a) = some (.order o)) :
    OrderCommand.execute m (OrderCommand.construct (some a)) = Order.execute m (some a) ∧
    OrderCommand.execute m (OrderCommand.construct (some a)) =
      some { heap := m.heap, out := m.out ++ "Order executed\n" } ∧
    lineCount "Order executed\n" = 1 ∧
    (∀ m1, OrderCommand.execute m (OrderCommand.construct (some a)) = some m1 →
      m1.load (some a) = some (.order o)) := by
  have hex := Order.execute_eq hload
  refine ⟨rfl, hex, by decide, ?_⟩
  intro m1 h1
  have heq : OrderCommand.execute m (OrderCommand.construct (some a)) =
      Order.execute m (some a) := rfl
  rw [heq, hex] at h1
  cases h1
  exact hload

theorem C4_witness :
    sampleOrder.load (some 2) =
      some (.order { products := [some 0, some 0], client := some 1 }) ∧
    OrderCommand.execute sampleOrder (OrderCommand.construct (some 2)) =
      some { heap := sampleOrder.heap, out := sampleOrder.out ++ "Order executed\n" } :=
  ⟨by decide,
    (C4_orderCommand_execute_forwards sampleOrder 2
      { products := [some 0, some 0], client := some 1 } (by decide)).2.1⟩

/-! ## C6 -/

theorem PaidShippedState.markPaid_eq (m : Machine) (order : Ptr) :
    PaidShippedState.markPaid m order =
      { heap := m.heap, out := m.out ++ "Order marked as paid\n" } :=
  Machine.cout_endl m "Order marked as paid"

theorem PaidShippedState.markShipped_eq (m : Machine) (order : Ptr) :
    PaidShippedState.markShipped m order =
      { heap := m.heap, out := m.out ++ "Order marked as shipped\n" } :=
  Machine.cout_endl m "Order marked as shipped"

/-- C6: for every machine and every order pointer, `markPaid(order)` followed
by `markShipped(order)` on a PaidShippedState appends exactly the two lines
"Order marked as paid" and "Order marked as shipped", in that order; the text
is the same for any two order pointers and any heap contents; the heap (so
the order, its products and its client) is identical afterwards; and
`markShipped` alone, with no `markPaid` before it, appends its one line. -/
theorem C6_markPaid_then_markShipped
    (m : Machine) (order : Ptr) :
    PaidShippedState.markShipped (PaidShippedState.markPaid m order) order =
      { heap := m.heap,
        out := m.out ++ "Order marked as paid\nOrder marked as shipped\n" } ∧
    lineCount "Order marked as paid\nOrder marked as shipped\n" = 2 ∧
    (∀ (heap2 : List (Option Object)) (order2 : Ptr),
      (PaidShippedState.markShipped
        (PaidShippedState.markPaid { heap := heap2, out := m.out } order2) order2).out =
        (PaidShippedState.markShipped (PaidShippedState.markPaid m order) order).out) ∧
    (∀ p, (PaidShippedState.markShipped (PaidShippedState.markPaid m order) order).load p =
      m.load p) ∧
    PaidShippedState.markShipped m order =
      { heap := m.heap, out := m.out ++ "Order marked as shipped\n" } := by
  have h2 : PaidShippedState.markShipped (PaidShippedState.markPaid m order) order =
      { heap := m.heap,
        out := m.out ++ "Order marked as paid\nOrder marked as shipped\n" } := by
    rw [PaidShippedState.markShipped_eq, PaidShippedState.markPaid_eq]
    simp only [String.append_assoc]
    rfl
  refine ⟨h2, by decide, ?_, ?_, PaidShippedState.markShipped_eq m order⟩
  · intro heap2 order2
    simp only [PaidShippedState.markShipped_eq, PaidShippedState.markPaid_eq]
  · intro p
    rw [h2]
    cases p <;> rfl

/-! ## C9 -/

/-- C9: for every machine, every message and every two client pointers `c1`
and `c2` (null included), `ConcreteMediator.notify(c1, message)` and
`notify(c2, message)` give the same machine: the heap is untouched and the
output grows by "Notification to client: ", the message and the end of line,
which is one line more than the message itself contains.  The result is a
function of the message alone, so the client pointer is neither read nor
stored. -/
theorem C9_notify_ignores_client
    (m : Machine) (c1 c2 : Ptr) (message : String) :
    ConcreteMediator.notify m c1 message = ConcreteMediator.notify m c2 message ∧
    ConcreteMediator.notify m none message = ConcreteMediator.notify m c1 message ∧
    ConcreteMediator.notify m c1 message =
      { heap := m.heap, out := m.out ++ ("Notification to client: " ++ message ++ "\n") } ∧
    lineCount ("Notification to client: " ++ message ++ "\n") = lineCount message + 1 := by
  refine ⟨rfl, rfl, ?_, ?_⟩
  · simp [ConcreteMediator.notify, Machine.cout, Machine.endl, String.append_assoc]
  · rw [lineCount_append, lineCount_append]
    have h1 : lineCount "Notification to client: " = 0 := by decide
    have h2 : lineCount "\n" = 1 := by decide
    omega

/-! ## C5 -/

theorem createThenDisplay_eq {m : Machine} {f : Ptr} {k : ProductFactory}
    (hload : m.load f = some (.factory k)) :
    createThenDisplay m f =
      some { heap := m.heap ++ [some (.product (expectedVariant k))],
             out := m.out ++ expectedName (expectedVariant k) } := by
  have hself : ∀ o, (m.new o).2.load (m.new o).1 = some o := Machine.load_new_self m
  cases k
  · simp only [createThenDisplay, ProductFactory.createProduct, hload,
      CoffeeFactory.createProduct, Product.display, hself, Coffee.display, Machine.cout_endl]
    rfl
  · simp only [createThenDisplay, ProductFactory.createProduct, hload,
      TeaFactory.createProduct, Product.display, hself, Tea.display, Machine.cout_endl]
    rfl
  · simp only [createThenDisplay, ProductFactory.createProduct, hload,
      CookieFactory.createProduct, Product.display, hself, Cookie.display, Machine.cout_endl]
    rfl

theorem ProductFactory.createProduct_eq {m : Machine} {f : Ptr} {k : ProductFactory}
    (hload : m.load f = some (.factory k)) :
    ProductFactory.createProduct m f = some (m.new (.product (expectedVariant k))) := by
  cases k <;> simp only [ProductFactory.createProduct, hload] <;> rfl

theorem createThenDisplay_iterate {f : Ptr} {k : ProductFactory} (n : Nat) :
    ∀ m : Machine, m.load f = some (.factory k) →
      ∃ mn, (fun r : Option Machine => r.bind fun s => createThenDisplay s f)^[n] (some m)
          = some mn ∧ mn.load f = some (.factory k) := by
  induction n with
  | zero =>
    intro m hload
    exact ⟨m, rfl, hload⟩
  | succ n ih =>
    intro m hload
    obtain ⟨mn, hrun, hl⟩ := ih m hload
    refine ⟨(mn.new (.product (expectedVariant k))).2.cout
      (expectedName (expectedVariant k)), ?_, ?_⟩
    · rw [Function.iterate_succ_apply', hrun]
      exact createThenDisplay_eq hl
    · exact Machine.load_new_old (.product (expectedVariant k)) hl

/-- C5: for a live factory object of class `k` at `fa`, `createProduct`
followed by `display` returns and appends exactly the name line of the product
of that factory: "Coffee" for a CoffeeFactory, "Tea" for a TeaFactory,
"Cookie" for a CookieFactory.  After any number `n` of repetitions the next
repetition again returns and appends the same line.  Two factories of
different classes never create products of the same variant. -/
theorem C5_factory_product_name
    (m : Machine) (fa : Addr) (k : ProductFactory)
    (hload : m.load (some fa) = some (.factory k)) :
    (k = .CoffeeFactory → createThenDisplay m (some fa) =
      some { heap := m.heap ++ [some (.product .Coffee)], out := m.out ++ "Coffee\n" }) ∧
    (k = .TeaFactory → createThenDisplay m (some fa) =
      some { heap := m.heap ++ [some (.product .Tea)], out := m.out ++ "Tea\n" }) ∧
    (k = .CookieFactory → createThenDisplay m (some fa) =
      some { heap := m.heap ++ [some (.product .Cookie)], out := m.out ++ "Cookie\n" }) ∧
    (∀ n : Nat, ∃ mn,
      (fun r : Option Machine => r.bind fun s => createThenDisplay s (some fa))^[n] (some m)
        = some mn ∧
      createThenDisplay mn (some fa) =
        some { heap := mn.heap ++ [some (.product (expectedVariant k))],
               out := mn.out ++ expectedName (expectedVariant k) }) ∧
    (∀ (m2 : Machine) (fb : Addr) (k2 : ProductFactory),
      m2.load (some fb) = some (.factory k2) → k ≠ k2 →
      ∀ p m1 q m3, ProductFactory.createProduct m (some fa) = some (p, m1) →
        ProductFactory.createProduct m2 (some fb) = some (q, m3) →
        m1.load p ≠ m3.load q) := by
  refine ⟨?_, ?_, ?_, ?_, ?_⟩
  · intro hk
    subst hk
    exact createThenDisplay_eq hload
  · intro hk
    subst hk
    exact createThenDisplay_eq hload
  · intro hk
    subst hk
    exact createThenDisplay_eq hload
  · intro n
    obtain ⟨mn, hrun, hl⟩ := createThenDisplay_iterate n m hload
    exact ⟨mn, hrun, createThenDisplay_eq hl⟩
  · intro m2 fb k2 hload2 hne p m1 q m3 h1 h2
    rw [ProductFactory.createProduct_eq hload] at h1
    rw [ProductFactory.createProduct_eq hload2] at h2
    cases h1
    cases h2
    change (m.new (.product (expectedVariant k))).2.load
        (m.new (.product (expectedVariant k))).1 ≠
      (m2.new (.product (expectedVariant k2))).2.load
        (m2.new (.product (expectedVariant k2))).1
    rw [Machine.load_new_self, Machine.load_new_self]
    intro heq
    apply hne
    cases k <;> cases k2 <;> simp_all [expectedVariant]

theorem C5_witness :
    sampleFactories.load (some 1) = some (.factory .TeaFactory) ∧
    createThenDisplay sampleFactories (some 1) =
      some { heap := sampleFactories.heap ++ [some (.product .Tea)],
             out := sampleFactories.out ++ "Tea\n" } :=
  ⟨by decide,
    (C5_factory_product_name sampleFactories 1 .TeaFactory (by decide)).2.1 rfl⟩

/-! ## C7 -/

/-- C7: for a live base DiscountHandler at `a` and every order pointer: after
`setNextHandler(N)` with a non-null `N`, `applyDiscount(order)` is exactly the
call `N.applyDiscount(order)` with the same order, one call deeper (so it
returns a result exactly when the call on `N` does, with the same output and
heap, and adds no line of its own); when the successor is null (as found, or
after `setNextHandler(nullptr)`), `applyDiscount` returns the machine
unchanged: nothing is printed. -/
theorem C7_base_handler_forwards
    (m : Machine) (a : Addr) (h : DiscountHandler) (order : Ptr)
    (hload : m.load (some a) = some (.handler h))
    (hd : h.dyn = .DiscountHandler) :
    (∀ n : Addr, ∃ m1,
      DiscountHandler.setNextHandler m (some a) (some n) = some m1 ∧
      m1.out = m.out ∧
      (∀ fuel, DiscountHandler.applyDiscount (fuel + 1) m1 (some a) order =
        DiscountHandler.applyDiscount fuel m1 (some n) order) ∧
      (∀ r, (∃ fuel, DiscountHandler.applyDiscount fuel m1 (some a) order = some r) ↔
        (∃ fuel, DiscountHandler.applyDiscount fuel m1 (some n) order = some r))) ∧
    (h.nextHandler = none →
      ∀ fuel, DiscountHandler.applyDiscount (fuel + 1) m (some a) order = some m) ∧
    (∃ m1, DiscountHandler.setNextHandler m (some a) none = some m1 ∧
      ∀ fuel, DiscountHandler.applyDiscount (fuel + 1) m1 (some a) order = some m1) := by
  refine ⟨?_, ?_, ?_⟩
  · intro n
    have hl := Machine.load_store_self
      (.handler { dyn := h.dyn, nextHandler := some n }) hload
    have hstep : ∀ fuel,
        DiscountHandler.applyDiscount (fuel + 1)
          (m.store a (.handler { dyn := h.dyn, nextHandler := some n })) (some a) order =
        DiscountHandler.applyDiscount fuel
          (m.store a (.handler { dyn := h.dyn, nextHandler := some n })) (some n) order :=
      fun fuel => DiscountHandler.applyDiscount_base_next fuel order hl hd rfl
    refine ⟨_, DiscountHandler.setNextHandler_eq (some n) hload, rfl, hstep, ?_⟩
    intro r
    constructor
    · rintro ⟨fuel, hf⟩
      cases fuel with
      | zero => simp [DiscountHandler.applyDiscount] at hf
      | succ fuel => exact ⟨fuel, by rw [← hstep fuel]; exact hf⟩
    · rintro ⟨fuel, hf⟩
      exact ⟨fuel + 1, by rw [hstep fuel]; exact hf⟩
  · intro hn fuel
    exact DiscountHandler.applyDiscount_base_null fuel order hload hd hn
  · have hl := Machine.load_store_self
      (.handler { dyn := h.dyn, nextHandler := none }) hload
    exact ⟨_, DiscountHandler.setNextHandler_eq none hload,
      fun fuel => DiscountHandler.applyDiscount_base_null fuel order hl hd rfl⟩

theorem C7_witness :
    (sampleHandlers.load (some 2) =
        some (.handler (DiscountHandler.valueInit .DiscountHandler)) ∧
      (DiscountHandler.valueInit .DiscountHandler).dyn = .DiscountHandler) ∧
    ∃ m1, DiscountHandler.setNextHandler sampleHandlers (some 2) (some 1) = some m1 ∧
      DiscountHandler.applyDiscount 2 m1 (some 2) none =
        DiscountHandler.applyDiscount 1 m1 (some 1) none := by
  refine ⟨⟨by decide, by decide⟩, ?_⟩
  obtain ⟨hfwd, _, _⟩ :=
    C7_base_handler_forwards sampleHandlers 2 (DiscountHandler.valueInit .DiscountHandler)
      none (by decide) (by decide)
  obtain ⟨m1, hset, _, hstep, _⟩ := hfwd 1
  exact ⟨m1, hset, hstep 1⟩

/-! ## C10 -/

theorem lineCount_chainOutput (cs : List HandlerClass) : lineCount (chainOutput cs) ≤ 1 := by
  induction cs with
  | nil => decide
  | cons c cs ih =>
    cases c
    · exact ih
    · show lineCount "Early Bird Discount Applied\n" ≤ 1
      decide
    · show lineCount "VIP Discount Applied\n" ≤ 1
      decide

theorem chainOutput_all_base (cs : List HandlerClass)
    (hall : ∀ c ∈ cs, c = HandlerClass.DiscountHandler) : chainOutput cs = "" := by
  induction cs with
  | nil => rfl
  | cons c cs ih =>
    have hc : c = HandlerClass.DiscountHandler := hall c (List.mem_cons_self c cs)
    subst hc
    exact ih (fun x hx => hall x (List.mem_cons_of_mem _ hx))

theorem chainOutput_first_concrete (pre post : List HandlerClass) (c : HandlerClass)
    (hpre : ∀ x ∈ pre, x = HandlerClass.DiscountHandler)
    (hc : c ≠ HandlerClass.DiscountHandler) :
    chainOutput (pre ++ c :: post) = chainOutput [c] := by
  induction pre with
  | nil => cases c <;> simp_all [chainOutput]
  | cons x pre ih =>
    have hx : x = HandlerClass.DiscountHandler := hpre x (List.mem_cons_self x pre)
    subst hx
    exact ih (fun y hy => hpre y (List.mem_cons_of_mem _ hy))

theorem isChain_nil {m : Machine} {p : Ptr} (hchain : isChain m p [] = true) : p = none := by
  cases p with
  | none => rfl
  | some a => simp [isChain] at hchain

theorem isChain_cons {m : Machine} {p : Ptr} {c : HandlerClass} {cs : List HandlerClass}
    (hchain : isChain m p (c :: cs) = true) :
    ∃ h, m.load p = some (.handler h) ∧ h.dyn = c ∧ isChain m h.nextHandler cs = true := by
  unfold isChain at hchain
  split at hchain
  · next h hload =>
    by_cases hd : h.dyn = c
    · exact ⟨h, hload, hd, by simpa [hd] using hchain⟩
    · simp [hd] at hchain
  · simp at hchain

theorem DiscountHandler.applyDiscount_self_loop {m : Machine} {a : Addr}
    (hload : m.load (some a) =
      some (.handler { dyn := .DiscountHandler, nextHandler := some a })) (order : Ptr) :
    ∀ fuel, DiscountHandler.applyDiscount fuel m (some a) order = none := by
  intro fuel
  induction fuel with
  | zero => rfl
  | succ fuel ih =>
    rw [DiscountHandler.applyDiscount_base_next fuel order hload rfl rfl]
    exact ih

theorem DiscountHandler.applyDiscount_chain (cs : List HandlerClass) :
    ∀ (m : Machine) (p : Ptr) (order : Ptr) (fuel : Nat),
      p ≠ none → isChain m p cs = true → cs.length ≤ fuel →
      DiscountHandler.applyDiscount fuel m p order =
        some { heap := m.heap, out := m.out ++ chainOutput cs } := by
  induction cs with
  | nil =>
    intro m p order fuel hp hchain _
    exact absurd (isChain_nil hchain) hp
  | cons c cs ih =>
    intro m p order fuel hp hchain hfuel
    obtain ⟨h, hload, hdyn, hrest⟩ := isChain_cons hchain
    cases fuel with
    | zero => simp at hfuel
    | succ fuel =>
      have hfuel1 : cs.length ≤ fuel := by simpa using hfuel
      cases c with
      | EarlyBirdDiscount => exact DiscountHandler.applyDiscount_earlyBird fuel order hload hdyn
      | VIPDiscount => exact DiscountHandler.applyDiscount_vip fuel order hload hdyn
      | DiscountHandler =>
        cases hn : h.nextHandler with
        | none =>
          rw [DiscountHandler.applyDiscount_base_null fuel order hload hdyn hn]
          rw [hn] at hrest
          cases cs with
          | nil => simp [chainOutput]
          | cons c2 cs2 =>
            obtain ⟨h2, hload2, _, _⟩ := isChain_cons hrest
            simp [Machine.load] at hload2
        | some next =>
          rw [DiscountHandler.applyDiscount_base_next fuel order hload hdyn hn]
          rw [hn] at hrest
          exact ih m (some next) order fuel (by simp) hrest hfuel1

/-- C10: for every null-terminated (hence finite and acyclic) chain of
handlers starting at the live handler `a`, with any mix of classes `cs`, and
every order pointer, `applyDiscount` on the head returns as soon as the call
depth allowed is at least the length of the chain, leaves the heap alone and
appends at most one line: the line of the first concrete handler reached
through base handlers, whatever follows it, or nothing when every node is a
base handler. -/
theorem C10_chain_prints_first_concrete_line
    (m : Machine) (a : Addr) (cs : List HandlerClass) (order : Ptr) (fuel : Nat)
    (hchain : isChain m (some a) cs = true) (hfuel : cs.length ≤ fuel) :
    DiscountHandler.applyDiscount fuel m (some a) order =
      some { heap := m.heap, out := m.out ++ chainOutput cs } ∧
    lineCount (chainOutput cs) ≤ 1 ∧
    ((∀ c ∈ cs, c = HandlerClass.DiscountHandler) → chainOutput cs = "") ∧
    (∀ pre post, (∀ x ∈ pre, x = HandlerClass.DiscountHandler) →
      (cs = pre ++ HandlerClass.EarlyBirdDiscount :: post →
        chainOutput cs = "Early Bird Discount Applied\n") ∧
      (cs = pre ++ HandlerClass.VIPDiscount :: post →
        chainOutput cs = "VIP Discount Applied\n")) := by
  refine ⟨DiscountHandler.applyDiscount_chain cs m (some a) order fuel (by simp) hchain hfuel,
    lineCount_chainOutput cs, chainOutput_all_base cs, ?_⟩
  intro pre post hpre
  constructor
  · intro hcs
    rw [hcs, chainOutput_first_concrete pre post _ hpre (by decide)]
    rfl
  · intro hcs
    rw [hcs, chainOutput_first_concrete pre post _ hpre (by decide)]
    rfl

theorem C10_witness :
    (isChain sampleChain (some 0)
        [.DiscountHandler, .DiscountHandler, .VIPDiscount, .EarlyBirdDiscount] = true ∧
      [HandlerClass.DiscountHandler, .DiscountHandler, .VIPDiscount,
        .EarlyBirdDiscount].length ≤ 4) ∧
    DiscountHandler.applyDiscount 4 sampleChain (some 0) none =
      some { heap := sampleChain.heap,
             out := sampleChain.out ++ chainOutput
               [.DiscountHandler, .DiscountHandler, .VIPDiscount, .EarlyBirdDiscount] } :=
  ⟨⟨by decide, by decide⟩,
    (C10_chain_prints_first_concrete_line sampleChain 0
      [.DiscountHandler, .DiscountHandler, .VIPDiscount, .EarlyBirdDiscount] none 4
      (by decide) (by decide)).1⟩

/-! ## C2 -/

theorem main_eq (fuel : Nat) (m0 : Machine) :
    main (fuel + 1) m0 = some (0,
      { heap := m0.heap ++ List.replicate 8 none,
        out := m0.out ++ "Coffee\nOrder placed\nOrder history viewed\nOrder executed\nEarly Bird Discount Applied\nOrder marked as paid\nOrder marked as shipped\n" }) := by
  obtain ⟨heap0, out0⟩ := m0
  simp [main, Machine.new, ProductFactory.createProduct, CoffeeFactory.createProduct,
    Product.display, Coffee.display, Client.placeOrder, Client.viewOrderHistory,
    ConcreteClient.placeOrder, ConcreteClient.viewOrderHistory, Order.construct,
    Order.addProduct, OrderCommand.construct, OrderCommand.execute, Order.execute,
    DiscountHandler.valueInit, DiscountHandler.defaultInit, DiscountHandler.setNextHandler,
    DiscountHandler.applyDiscount, EarlyBirdDiscount.applyDiscount, OrderState.markPaid,
    OrderState.markShipped, PaidShippedState.markPaid, PaidShippedState.markShipped,
    Machine.delete, Machine.load, Machine.store, Machine.cout, Machine.endl,
    getD_append_add, getD_append_length, set_append_add, set_append_length,
    -List.getD_eq_getElem?_getD]
  simp only [String.append_assoc]
  rfl

/-- C2, as stated, fails: the run of `main` from the initial machine (empty
heap, empty output) returns after printing seven lines, so it does not print
nine. -/
theorem C2_main_does_not_print_nine_lines :
    (main 1 Machine.initial).map (fun r => lineCount r.2.out) = some 7 ∧
    ¬ (∃ r, main 1 Machine.initial = some r ∧ lineCount r.2.out = 9) := by
  have h : main 1 Machine.initial = _ := main_eq 0 Machine.initial
  constructor
  · rw [h]
    decide
  · rintro ⟨r, hr, h9⟩
    rw [h] at hr
    cases hr
    revert h9
    decide

/-- C2, amended: from every starting machine, and with any call depth of at
least one allowed to `applyDiscount`, `main` returns exit status 0,
frees every object it allocated, and appends exactly seven fixed lines (the
product name, order placed, history viewed, order executed, the Early Bird
line, paid, shipped), the same text whatever the starting heap and earlier
output; `addProduct` and `setNextHandler` never print. -/
theorem C2_main_prints_seven_lines (fuel : Nat) (m0 : Machine) :
    main (fuel + 1) m0 = some (0,
      { heap := m0.heap ++ List.replicate 8 none,
        out := m0.out ++ "Coffee\nOrder placed\nOrder history viewed\nOrder executed\nEarly Bird Discount Applied\nOrder marked as paid\nOrder marked as shipped\n" }) ∧
    lineCount "Coffee\nOrder placed\nOrder history viewed\nOrder executed\nEarly Bird Discount Applied\nOrder marked as paid\nOrder marked as shipped\n" = 7 ∧
    (∀ (m : Machine) (this product : Ptr),
      (Order.addProduct m this product).map Machine.out =
        (Order.addProduct m this product).map (fun _ => m.out)) ∧
    (∀ (m : Machine) (this handler : Ptr),
      (DiscountHandler.setNextHandler m this handler).map Machine.out =
        (DiscountHandler.setNextHandler m this handler).map (fun _ => m.out)) := by
  refine ⟨main_eq fuel m0, by decide, ?_, ?_⟩
  · intro m this product
    unfold Order.addProduct
    split <;> rfl
  · intro m this handler
    unfold DiscountHandler.setNextHandler
    split <;> rfl

/-! ## C8 -/

/-- C8 fails on the code: the handler classes declare no constructor and
`nextHandler` has no initializer.  A value-initialized handler (the form used
by `main`) has a null successor, but a default-initialized one keeps whatever
its storage held: here a freshly created base handler, never passed to
`setNextHandler`, has a non-null successor and `applyDiscount` on it forwards
to the VIP handler at address 0 and prints its line. -/
theorem C8_default_initialized_handler_forwards :
    (∀ dyn, (DiscountHandler.valueInit dyn).nextHandler = none) ∧
    (DiscountHandler.defaultInit .DiscountHandler (some 0)).nextHandler ≠ none ∧
    sampleDefaultInit.load (some 1) =
      some (.handler (DiscountHandler.defaultInit .DiscountHandler (some 0))) ∧
    DiscountHandler.applyDiscount 2 sampleDefaultInit (some 1) none =
      some { heap := sampleDefaultInit.heap, out := "VIP Discount Applied\n" } := by
  refine ⟨fun _ => rfl, by decide, by decide, by decide⟩

end CoffeeShop
